import Mathlib

/-!
Verification development for the MongoDB → PostgreSQL synchronization service
(`app/etl.py`, `app/realtime_sync.py`).

The relational tables are modelled as lists of typed records; the statement
`INSERT ... ON CONFLICT (origen_id) DO UPDATE SET ...` is modelled by
`upsertBy`, which overwrites the (unique) row carrying the same key and
otherwise appends a fresh row.  Document mappers (`map_cliente`, `map_venta`,
`map_detalle_venta`) are translated field by field, including Python
truthiness of the `or`-default chains.  The retry / cancellation logic of
`sync_data` and the change watcher of `realtime_sync.py` are given explicit
step functions producing traces.
-/

/-- One `INSERT ... ON CONFLICT (key) DO UPDATE` applied to a table modelled
as a list of rows: replace the first row with the same key, else append. -/
def upsertBy {ρ : Type} (kf : ρ → String) (r : ρ) : List ρ → List ρ
  | [] => [r]
  | x :: xs => if kf x = kf r then r :: xs else x :: upsertBy kf r xs

/-- Upserting a whole batch, first record first (the per-record loop of the
`upsert_*` writers on their success path). -/
def upsertAllBy {ρ : Type} (kf : ρ → String) (rs : List ρ) (t : List ρ) : List ρ :=
  rs.foldl (fun acc r => upsertBy kf r acc) t

/-- Row lookup by key (the row a `SELECT ... WHERE origen_id = k` would see). -/
def findBy {ρ : Type} (kf : ρ → String) (k : String) (t : List ρ) : Option ρ :=
  t.find? (fun x => kf x = k)

/-- The last record of a batch carrying a given key (`DO UPDATE` makes the
last write win). -/
def lastWith {ρ : Type} (kf : ρ → String) (k : String) : List ρ → Option ρ
  | [] => none
  | r :: rs =>
    match lastWith kf k rs with
    | some x => some x
    | none => if kf r = k then some r else none

theorem findBy_nil {ρ : Type} (kf : ρ → String) (k : String) :
    findBy kf k ([] : List ρ) = none := rfl

theorem findBy_cons {ρ : Type} (kf : ρ → String) (k : String) (x : ρ) (xs : List ρ) :
    findBy kf k (x :: xs) = if kf x = k then some x else findBy kf k xs := by
  by_cases h : kf x = k <;> simp [findBy, List.find?_cons, h]

theorem upsertBy_cons_eq {ρ : Type} (kf : ρ → String) (r x : ρ) (xs : List ρ)
    (h : kf x = kf r) : upsertBy kf r (x :: xs) = r :: xs := by
  simp [upsertBy, h]

theorem upsertBy_cons_ne {ρ : Type} (kf : ρ → String) (r x : ρ) (xs : List ρ)
    (h : ¬ kf x = kf r) : upsertBy kf r (x :: xs) = x :: upsertBy kf r xs := by
  simp [upsertBy, h]

theorem keys_upsertBy {ρ : Type} (kf : ρ → String) (r : ρ) (t : List ρ) :
    (upsertBy kf r t).map kf =
      if kf r ∈ t.map kf then t.map kf else t.map kf ++ [kf r] := by
  induction t with
  | nil => simp [upsertBy]
  | cons x xs ih =>
    by_cases h : kf x = kf r
    · simp [upsertBy_cons_eq kf r x xs h, h]
    · have h' : ¬ kf r = kf x := fun hh => h hh.symm
      rw [upsertBy_cons_ne kf r x xs h]
      by_cases hm : kf r ∈ xs.map kf
      · simp [ih, hm, h']
      · simp [ih, hm, h']

theorem findBy_upsertBy {ρ : Type} (kf : ρ → String) (r : ρ) (k : String) (t : List ρ) :
    findBy kf k (upsertBy kf r t) =
      if kf r = k then some r else findBy kf k t := by
  induction t with
  | nil =>
    show findBy kf k [r] = _
    rw [findBy_cons, findBy_nil]
  | cons x xs ih =>
    by_cases hx : kf x = kf r
    · rw [upsertBy_cons_eq kf r x xs hx, findBy_cons, findBy_cons]
      by_cases h : kf r = k
      · simp [h]
      · have hxk : ¬ kf x = k := by rw [hx]; exact h
        simp [h, hxk]
    · rw [upsertBy_cons_ne kf r x xs hx, findBy_cons, findBy_cons]
      by_cases hxk : kf x = k
      · have h : ¬ kf r = k := fun hh => hx (hxk.trans hh.symm)
        simp [hxk, h]
      · simp [hxk, ih]

theorem findBy_eq_none {ρ : Type} (kf : ρ → String) (k : String) (t : List ρ)
    (h : k ∉ t.map kf) : findBy kf k t = none := by
  induction t with
  | nil => rfl
  | cons x xs ih =>
    rw [findBy_cons]
    have hx : ¬ kf x = k := by
      intro hh
      exact h (by simp [hh])
    rw [if_neg hx]
    exact ih (fun hm => h (by simp; right; simpa using hm))

theorem findBy_self {ρ : Type} (kf : ρ → String) (r : ρ) (t : List ρ)
    (hnd : (t.map kf).Nodup) (hr : r ∈ t) : findBy kf (kf r) t = some r := by
  induction t with
  | nil => cases hr
  | cons x xs ih =>
    rcases List.mem_cons.mp hr with h | h
    · subst h; rw [findBy_cons, if_pos rfl]
    · have hnx : kf x ∉ xs.map kf := (List.nodup_cons.mp hnd).1
      have hne : ¬ kf x = kf r := by
        intro hh
        exact hnx (hh ▸ List.mem_map_of_mem kf h)
      rw [findBy_cons, if_neg hne]
      exact ih (List.nodup_cons.mp hnd).2 h

theorem table_ext {ρ : Type} (kf : ρ → String) :
    ∀ t₁ t₂ : List ρ, t₁.map kf = t₂.map kf →
      (∀ k, findBy kf k t₁ = findBy kf k t₂) → (t₁.map kf).Nodup → t₁ = t₂ := by
  intro t₁
  induction t₁ with
  | nil =>
    intro t₂ hm _ _
    cases t₂ with
    | nil => rfl
    | cons y ys => simp at hm
  | cons x xs ih =>
    intro t₂ hm hf hnd
    cases t₂ with
    | nil => simp at hm
    | cons y ys =>
      simp only [List.map_cons, List.cons.injEq] at hm
      obtain ⟨hk, htail⟩ := hm
      have hx : findBy kf (kf x) (x :: xs) = some x := by
        rw [findBy_cons, if_pos rfl]
      have hy : findBy kf (kf x) (y :: ys) = some y := by
        rw [findBy_cons, if_pos hk.symm]
      have hxy : x = y := Option.some.inj ((hx.symm.trans (hf (kf x))).trans hy)
      have hnx : kf x ∉ xs.map kf := (List.nodup_cons.mp hnd).1
      have htl : ∀ k, findBy kf k xs = findBy kf k ys := by
        intro k
        by_cases hkk : k = kf x
        · subst hkk
          rw [findBy_eq_none kf _ _ hnx, findBy_eq_none]
          rw [← htail]; exact hnx
        · have h1 : findBy kf k (x :: xs) = findBy kf k xs := by
            rw [findBy_cons, if_neg (fun hh => hkk hh.symm)]
          have h2 : findBy kf k (y :: ys) = findBy kf k ys := by
            rw [findBy_cons, if_neg (fun hh => hkk (hk ▸ hh).symm)]
          rw [← h1, ← h2]; exact hf k
      exact hxy ▸ congrArg (x :: ·) (ih ys htail htl (List.nodup_cons.mp hnd).2)

theorem upsertAllBy_cons {ρ : Type} (kf : ρ → String) (r : ρ) (rs : List ρ) (t : List ρ) :
    upsertAllBy kf (r :: rs) t = upsertAllBy kf rs (upsertBy kf r t) := rfl

theorem findBy_upsertAllBy {ρ : Type} (kf : ρ → String) (k : String) :
    ∀ (rs : List ρ) (t : List ρ),
      findBy kf k (upsertAllBy kf rs t) =
        match lastWith kf k rs with
        | some x => some x
        | none => findBy kf k t := by
  intro rs
  induction rs with
  | nil => intro t; simp [upsertAllBy, lastWith]
  | cons r rs ih =>
    intro t
    rw [upsertAllBy_cons, ih]
    cases hlast : lastWith kf k rs with
    | some x => simp [lastWith, hlast]
    | none =>
      simp only [lastWith, hlast, findBy_upsertBy]
      by_cases h : kf r = k <;> simp [h]

theorem mem_keys_upsertBy {ρ : Type} (kf : ρ → String) (r : ρ) (t : List ρ) (k : String)
    (h : k ∈ t.map kf) : k ∈ (upsertBy kf r t).map kf := by
  rw [keys_upsertBy]
  by_cases hm : kf r ∈ t.map kf
  · simpa [hm] using h
  · simp [hm]
    exact Or.inl (by simpa using h)

theorem key_mem_upsertBy {ρ : Type} (kf : ρ → String) (r : ρ) (t : List ρ) :
    kf r ∈ (upsertBy kf r t).map kf := by
  rw [keys_upsertBy]
  by_cases hm : kf r ∈ t.map kf <;> simp [hm]

theorem mem_keys_upsertAllBy {ρ : Type} (kf : ρ → String) (k : String) :
    ∀ (rs : List ρ) (t : List ρ), k ∈ t.map kf → k ∈ (upsertAllBy kf rs t).map kf := by
  intro rs
  induction rs with
  | nil => intro t h; exact h
  | cons r rs ih =>
    intro t h
    rw [upsertAllBy_cons]
    exact ih _ (mem_keys_upsertBy kf r t k h)

theorem batch_key_mem_upsertAllBy {ρ : Type} (kf : ρ → String) :
    ∀ (rs : List ρ) (t : List ρ) (r : ρ), r ∈ rs → kf r ∈ (upsertAllBy kf rs t).map kf := by
  intro rs
  induction rs with
  | nil => intro t r h; cases h
  | cons x xs ih =>
    intro t r h
    rcases List.mem_cons.mp h with h | h
    · subst h
      rw [upsertAllBy_cons]
      exact mem_keys_upsertAllBy kf (kf r) xs _ (key_mem_upsertBy kf r t)
    · rw [upsertAllBy_cons]
      exact ih _ r h

theorem keys_upsertAllBy_covered {ρ : Type} (kf : ρ → String) :
    ∀ (rs : List ρ) (t : List ρ), (∀ r ∈ rs, kf r ∈ t.map kf) →
      (upsertAllBy kf rs t).map kf = t.map kf := by
  intro rs
  induction rs with
  | nil => intro t _; rfl
  | cons r rs ih =>
    intro t hcov
    rw [upsertAllBy_cons]
    have h1 : (upsertBy kf r t).map kf = t.map kf := by
      rw [keys_upsertBy, if_pos (hcov r (List.mem_cons_self r rs))]
    rw [ih (upsertBy kf r t) (fun x hx => h1 ▸ hcov x (List.mem_cons_of_mem r hx)), h1]

theorem nodup_keys_upsertBy {ρ : Type} (kf : ρ → String) (r : ρ) (t : List ρ)
    (h : (t.map kf).Nodup) : ((upsertBy kf r t).map kf).Nodup := by
  rw [keys_upsertBy]
  by_cases hm : kf r ∈ t.map kf
  · simpa [hm] using h
  · simp [hm, List.nodup_append, h]

theorem nodup_keys_upsertAllBy {ρ : Type} (kf : ρ → String) :
    ∀ (rs : List ρ) (t : List ρ), (t.map kf).Nodup → ((upsertAllBy kf rs t).map kf).Nodup := by
  intro rs
  induction rs with
  | nil => intro t h; exact h
  | cons r rs ih =>
    intro t h
    rw [upsertAllBy_cons]
    exact ih _ (nodup_keys_upsertBy kf r t h)

theorem lastWith_eq_none {ρ : Type} (kf : ρ → String) (k : String) :
    ∀ rs : List ρ, k ∉ rs.map kf → lastWith kf k rs = none := by
  intro rs
  induction rs with
  | nil => intro _; rfl
  | cons r rs ih =>
    intro h
    have h1 : k ∉ rs.map kf := fun hm => h (by simp; right; simpa using hm)
    have h2 : ¬ kf r = k := by
      intro hh
      exact h (by simp [hh])
    simp [lastWith, ih h1, h2]

/-- Re-applying the same batch of records converges: the second application
changes nothing (keyed `DO UPDATE` overwrites each row with the same values). -/
theorem upsertAllBy_idem {ρ : Type} (kf : ρ → String) (rs : List ρ) (t : List ρ)
    (hnd : (t.map kf).Nodup) :
    upsertAllBy kf rs (upsertAllBy kf rs t) = upsertAllBy kf rs t := by
  apply table_ext kf
  · exact keys_upsertAllBy_covered kf rs _ (fun r hr => batch_key_mem_upsertAllBy kf rs t r hr)
  · intro k
    rw [findBy_upsertAllBy, findBy_upsertAllBy]
    cases hlast : lastWith kf k rs with
    | some x => rfl
    | none => rfl
  · exact nodup_keys_upsertAllBy kf rs _ (nodup_keys_upsertAllBy kf rs t hnd)

/-- A wall-clock instant as `datetime.now()` yields it: a calendar day plus a
time-of-day remainder (only equality and `.date()` matter to the mappers). -/
structure PyDateTime where
  day : Nat
  tod : Nat
deriving DecidableEq, Repr

/-- `datetime.date()`: the calendar-day part of an instant. -/
def PyDateTime.dateOf (t : PyDateTime) : Nat := t.day

/-- A reference-field value as it arrives from MongoDB: either a native
`ObjectId` (carrying its 24-hex-character canonical encoding) or already a
string.  `str()` of an `ObjectId` is exactly that encoding. -/
inductive RefVal
  | oid (s : String)
  | strv (s : String)
deriving DecidableEq, Repr

/-- Python truthiness of a reference value: `ObjectId` is always truthy, a
string is truthy iff non-empty. -/
def RefVal.truthy : RefVal → Bool
  | .oid _ => true
  | .strv s => !(s == "")

/-- `str(v)`: the string form used as lookup key. -/
def RefVal.toStr : RefVal → String
  | .oid s => s
  | .strv s => s

/-- A date-like field value of a sale document: a native `datetime`, a string,
or some other (truthy) value — the three branches of `map_venta`. -/
inductive DateVal
  | dtv (t : PyDateTime)
  | dstr (s : String)
  | other
deriving DecidableEq, Repr

/-- Python truthiness of a date-like value (`''` is falsy, a `datetime` and
the opaque other case truthy). -/
def DateVal.truthy : DateVal → Bool
  | .dtv _ => true
  | .dstr s => !(s == "")
  | .other => true

/-- Truthiness of an optional value: `None` is falsy, otherwise defer to the
value's own truthiness. -/
def otruthy {α : Type} (tr : α → Bool) : Option α → Bool
  | none => false
  | some v => tr v

/-- Python `a or b` on two optional values under the truthiness `tr`. -/
def pyOr {α : Type} (tr : α → Bool) (a b : Option α) : Option α :=
  if otruthy tr a then a else b

/-- `a or b` applied to two optional reference fields, followed by the test
`if (a or b):` of the mapper — `none` when the combined value is falsy. -/
def pyRef (a b : Option RefVal) : Option RefVal :=
  let v := pyOr RefVal.truthy a b
  if otruthy RefVal.truthy v then v else none

/-- Truthiness of `Option String` (absent or empty string is falsy). -/
def strTruthy (s : String) : Bool := !(s == "")

/-- Truthiness of a numeric value (`0` is falsy). -/
def numTruthy (q : Rat) : Bool := !(q == 0)

/-- The `usuario` sub-document attached to a client/agent by the `$lookup`
against the `usuarios` collection. -/
structure Usuario where
  nombre : Option String
  apellido : Option String
  email : Option String
  telefono : Option String
deriving DecidableEq, Repr

/-- A raw `clientes` document (after the usuario lookup) as `map_cliente`
reads it. -/
structure ClienteDoc where
  mid : Option RefVal
  usuario : Option Usuario
  fechaRegistro : Option PyDateTime
  fecha_registro : Option PyDateTime
deriving DecidableEq, Repr

/-- The normalized client record written to the `clientes` table. -/
structure ClienteRec where
  origen_id : String
  nombre : String
  email : String
  telefono : Option String
  fecha_registro : PyDateTime
deriving DecidableEq, Repr

/-- `map_cliente` of `app/etl.py`: reject documents without `_id`, build the
full name from the embedded usuario (default `"Sin nombre"`), default the
registration date to `datetime.now()` when both date keys are absent
(`datetime` values are always truthy, so `or` only falls through on `None`). -/
def map_cliente (now : PyDateTime) (d : ClienteDoc) : Option ClienteRec :=
  match d.mid with
  | none => none
  | some idv =>
    if idv.truthy then
      let usuario := d.usuario.getD ⟨none, none, none, none⟩
      let nombre := usuario.nombre.getD ""
      let apellido := usuario.apellido.getD ""
      let nombre_completo :=
        if strTruthy nombre || strTruthy apellido then
          (nombre ++ " " ++ apellido).trim
        else ""
      some {
        origen_id := idv.toStr
        nombre := if strTruthy nombre_completo then nombre_completo else "Sin nombre"
        email := usuario.email.getD ""
        telefono := usuario.telefono
        fecha_registro := ((pyOr (fun _ => true) d.fechaRegistro d.fecha_registro).getD now) }
    else none

/-- A raw `ventas` document as `map_venta` reads it. -/
structure VentaDoc where
  mid : Option RefVal
  clienteId : Option RefVal
  cliente_id : Option RefVal
  agenteId : Option RefVal
  agente_id : Option RefVal
  estadoVenta : Option String
  estado_venta : Option String
  estado : Option String
  fechaVenta : Option DateVal
  fecha_venta : Option DateVal
  montoTotal : Option Rat
  monto_total : Option Rat
  monto : Option Rat
  puntuacionSatisfaccion : Option Rat
  puntuacion_satisfaccion : Option Rat
deriving DecidableEq, Repr

/-- The normalized sale record written to the `ventas` table
(`fecha_venta` is a calendar day, foreign keys are nullable). -/
structure VentaRec where
  origen_id : String
  cliente_id : Option Int
  agente_id : Option Int
  estado : String
  monto : Rat
  fecha_venta : Nat
  puntuacion_satisfaccion : Option Rat
deriving DecidableEq, Repr

/-- The foreign-key resolution pattern of the mappers: when the (camelCase
`or` snake_case) reference field is truthy, look up its `str()` form in the
identifier map; otherwise the foreign key stays null. -/
def resolveFk (m : List (String × Int)) (a b : Option RefVal) : Option Int :=
  match pyRef a b with
  | some v => List.lookup v.toStr m
  | none => none

/-- The sale-status normalization of `map_venta`:
`(estadoVenta or estado_venta or estado-defaulted-to-empty)`, lower-cased
when truthy, else the literal `"pendiente"`. -/
def ventaEstado (d : VentaDoc) : String :=
  match pyOr strTruthy (pyOr strTruthy d.estadoVenta d.estado_venta)
      (some (d.estado.getD "")) with
  | some s => if strTruthy s then s.toLower else "pendiente"
  | none => "pendiente"

/-- The sale-date normalization of `map_venta`: a native `datetime` yields
its `.date()`; a string is parsed by `fromisoformat` after
`replace('Z', '+00:00')`, any parse failure silently replaced by
`datetime.now().date()`; anything else also falls back to today. -/
def ventaFecha (parseIso : String → Option PyDateTime) (now : PyDateTime)
    (d : VentaDoc) : Nat :=
  match (pyOr DateVal.truthy (pyOr DateVal.truthy d.fechaVenta d.fecha_venta)
      (some (DateVal.dtv now))).getD (DateVal.dtv now) with
  | .dtv t => t.dateOf
  | .dstr s =>
    match parseIso (s.replace "Z" "+00:00") with
    | some t => t.dateOf
    | none => now.dateOf
  | .other => now.dateOf

/-- `float(montoTotal or monto_total or monto-defaulted-to-0)`. -/
def ventaMonto (d : VentaDoc) : Rat :=
  (pyOr numTruthy (pyOr numTruthy d.montoTotal d.monto_total)
    (some (d.monto.getD 0))).getD 0

/-- `map_venta` of `app/etl.py`.  `parseIso` models
`datetime.fromisoformat` (applied after `replace('Z', '+00:00')`), returning
`none` when Python would raise; the bare `except` then substitutes
`datetime.now().date()`.  Reference fields are looked up by their `str()`
form in the identifier maps; a missing entry yields a null foreign key. -/
def map_venta (parseIso : String → Option PyDateTime) (now : PyDateTime)
    (cliente_map agente_map : List (String × Int)) (d : VentaDoc) : Option VentaRec :=
  match d.mid with
  | none => none
  | some idv =>
    if idv.truthy then
      some {
        origen_id := idv.toStr
        cliente_id := resolveFk cliente_map d.clienteId d.cliente_id
        agente_id := resolveFk agente_map d.agenteId d.agente_id
        estado := ventaEstado d
        monto := ventaMonto d
        fecha_venta := ventaFecha parseIso now d
        puntuacion_satisfaccion :=
          pyOr numTruthy d.puntuacionSatisfaccion d.puntuacion_satisfaccion }
    else none

/-- A raw `detalleVenta` document as `map_detalle_venta` reads it. -/
structure DetalleDoc where
  mid : Option RefVal
  ventaId : Option RefVal
  venta_id : Option RefVal
  servicioId : Option RefVal
  servicio_id : Option RefVal
  paqueteId : Option RefVal
  paquete_id : Option RefVal
  descripcion : Option String
  cantidad : Option Int
  precioUnitario : Option Rat
  precio_unitario : Option Rat
  subtotal : Option Rat
deriving DecidableEq, Repr

/-- The normalized sale-line record written to the `detalle_venta` table. -/
structure DetalleRec where
  origen_id : String
  venta_id : Option Int
  servicio_id : Option Int
  paquete_id : Option Int
  descripcion : String
  cantidad : Int
  precio_unitario : Rat
  subtotal : Rat
deriving DecidableEq, Repr

/-- `map_detalle_venta` of `app/etl.py`: the three reference fields resolve
through the venta/servicio/paquete identifier maps via their `str()` form,
each falling back to a null foreign key. -/
def map_detalle_venta (venta_map servicio_map paquete_map : List (String × Int))
    (d : DetalleDoc) : Option DetalleRec :=
  match d.mid with
  | none => none
  | some idv =>
    if idv.truthy then
      some {
        origen_id := idv.toStr
        venta_id := resolveFk venta_map d.ventaId d.venta_id
        servicio_id := resolveFk servicio_map d.servicioId d.servicio_id
        paquete_id := resolveFk paquete_map d.paqueteId d.paquete_id
        descripcion := d.descripcion.getD ""
        cantidad := d.cantidad.getD 1
        precio_unitario :=
          (pyOr numTruthy (pyOr numTruthy d.precioUnitario d.precio_unitario)
            (some 0)).getD 0
        subtotal := d.subtotal.getD 0 }
    else none

/-- The clientes stage of one `sync_data` pass on its success path: map every
document, drop the `None` results, and upsert the batch keyed by `origen_id`
(lines 766–769 of `app/etl.py`). -/
def passClientes (now : PyDateTime) (docs : List ClienteDoc) (t : List ClienteRec) :
    List ClienteRec :=
  upsertAllBy (fun r => r.origen_id) (docs.filterMap (map_cliente now)) t

/-- The normalized agent record written to the `agentes` table. -/
structure AgenteRec where
  origen_id : String
  nombre : String
  email : String
  telefono : Option String
deriving DecidableEq, Repr

/-- A raw `agentes` document (after the usuario lookup) as `map_agente`
reads it. -/
structure AgenteDoc where
  mid : Option RefVal
  usuario : Option Usuario
deriving DecidableEq, Repr

/-- `map_agente` of `app/etl.py`: like `map_cliente` but without a
registration date. -/
def map_agente (d : AgenteDoc) : Option AgenteRec :=
  match d.mid with
  | none => none
  | some idv =>
    if idv.truthy then
      let usuario := d.usuario.getD ⟨none, none, none, none⟩
      let nombre := usuario.nombre.getD ""
      let apellido := usuario.apellido.getD ""
      let nombre_completo :=
        if strTruthy nombre || strTruthy apellido then
          (nombre ++ " " ++ apellido).trim
        else ""
      some {
        origen_id := idv.toStr
        nombre := if strTruthy nombre_completo then nombre_completo else "Sin nombre"
        email := usuario.email.getD ""
        telefono := usuario.telefono }
    else none

/-- A raw `servicios` document as `map_servicio` reads it. -/
structure ServicioDoc where
  mid : Option RefVal
  destinoCiudad : Option String
  destino_ciudad : Option String
  destinoPais : Option String
  destino_pais : Option String
  precioCosto : Option Rat
  precio_costo : Option Rat
deriving DecidableEq, Repr

/-- The normalized service record written to the `servicios` table. -/
structure ServicioRec where
  origen_id : String
  destino_ciudad : Option String
  destino_pais : Option String
  precio_costo : Rat
deriving DecidableEq, Repr

/-- `map_servicio` of `app/etl.py`. -/
def map_servicio (d : ServicioDoc) : Option ServicioRec :=
  match d.mid with
  | none => none
  | some idv =>
    if idv.truthy then
      some {
        origen_id := idv.toStr
        destino_ciudad := pyOr strTruthy d.destinoCiudad d.destino_ciudad
        destino_pais := pyOr strTruthy d.destinoPais d.destino_pais
        precio_costo :=
          (pyOr numTruthy (pyOr numTruthy d.precioCosto d.precio_costo)
            (some 0)).getD 0 }
    else none

/-- A raw `paquetesTuristicos` document as `map_paquete_turistico` reads it. -/
structure PaqueteDoc where
  mid : Option RefVal
  destinoPrincipal : Option String
  destino_principal : Option String
  precioTotalVenta : Option Rat
  precio_total_venta : Option Rat
deriving DecidableEq, Repr

/-- The normalized package record written to the `paquetes_turisticos`
table. -/
structure PaqueteRec where
  origen_id : String
  destino_principal : Option String
  precio_total_venta : Rat
deriving DecidableEq, Repr

/-- `map_paquete_turistico` of `app/etl.py`. -/
def map_paquete_turistico (d : PaqueteDoc) : Option PaqueteRec :=
  match d.mid with
  | none => none
  | some idv =>
    if idv.truthy then
      some {
        origen_id := idv.toStr
        destino_principal := pyOr strTruthy d.destinoPrincipal d.destino_principal
        precio_total_venta :=
          (pyOr numTruthy (pyOr numTruthy d.precioTotalVenta d.precio_total_venta)
            (some 0)).getD 0 }
    else none

/-- The agentes stage of one pass (lines 771–774): map, drop `None`, upsert. -/
def passAgentes (docs : List AgenteDoc) (t : List AgenteRec) : List AgenteRec :=
  upsertAllBy (fun r => r.origen_id) (docs.filterMap map_agente) t

/-- The servicios stage of one pass (lines 776–779). -/
def passServicios (docs : List ServicioDoc) (t : List ServicioRec) : List ServicioRec :=
  upsertAllBy (fun r => r.origen_id) (docs.filterMap map_servicio) t

/-- The paquetes stage of one pass (lines 781–784). -/
def passPaquetes (docs : List PaqueteDoc) (t : List PaqueteRec) : List PaqueteRec :=
  upsertAllBy (fun r => r.origen_id) (docs.filterMap map_paquete_turistico) t

/-- The ventas stage of one pass (lines 791–794), given the identifier maps
rebuilt from the tables just committed. -/
def passVentas (parseIso : String → Option PyDateTime) (now : PyDateTime)
    (cm am : List (String × Int)) (docs : List VentaDoc) (t : List VentaRec) :
    List VentaRec :=
  upsertAllBy (fun r => r.origen_id) (docs.filterMap (map_venta parseIso now cm am)) t

/-- The detalle_venta stage of one pass (lines 796–799). -/
def passDetalles (vm sm pm : List (String × Int)) (docs : List DetalleDoc)
    (t : List DetalleRec) : List DetalleRec :=
  upsertAllBy (fun r => r.origen_id) (docs.filterMap (map_detalle_venta vm sm pm)) t

/-- The state of the non-autocommit psycopg connection the ETL writers see:
the rows visible inside the open transaction, the snapshot at the last
commit/rollback boundary, and whether an earlier statement error has left the
transaction aborted (PostgreSQL then rejects every further statement until a
rollback). -/
structure PgState (ρ : Type) where
  cur : List ρ
  committed : List ρ
  aborted : Bool
deriving DecidableEq, Repr

/-- `cur.execute(INSERT ... ON CONFLICT (origen_id) DO UPDATE ...)` for one
record.  `failsOn` is the environment: whether PostgreSQL raises on this
record (e.g. a different constraint violation).  On success the returned
`cur.rowcount` is `1` on BOTH the insert and the update path (the command tag
of `INSERT ... ON CONFLICT DO UPDATE` is `INSERT 0 1` either way); a raise in
an open transaction marks it aborted; in an already-aborted transaction the
statement raises `InFailedSqlTransaction` without touching the data. -/
def execUpsert {ρ : Type} (kf : ρ → String) (failsOn : ρ → Bool)
    (st : PgState ρ) (r : ρ) : PgState ρ × Option Nat :=
  if st.aborted then (st, none)
  else if failsOn r then ({ st with aborted := true }, none)
  else ({ st with cur := upsertBy kf r st.cur }, some 1)

/-- `conn.rollback()`: discard uncommitted work and clear the aborted flag. -/
def pgRollback {ρ : Type} (st : PgState ρ) : PgState ρ :=
  ⟨st.committed, st.committed, false⟩

/-- `upsert_clientes` of `app/etl.py` (lines 385–425): per record, execute the
upsert, count `insertados` when `rowcount == 1` else `actualizados`; on an
exception log and `conn.rollback()` so the loop can continue.  Schema
preparation is not involved for this table.  Returns the final connection
state and the `(insertados, actualizados)` pair. -/
def upsert_clientes (failsOn : ClienteRec → Bool) (st0 : PgState ClienteRec)
    (clientes : List ClienteRec) : PgState ClienteRec × Nat × Nat :=
  if clientes.isEmpty then (st0, 0, 0)
  else
    clientes.foldl
      (fun acc r =>
        let (st, ins, act) := acc
        match execUpsert (fun c => c.origen_id) failsOn st r with
        | (st', some rc) => if rc == 1 then (st', ins + 1, act) else (st', ins, act + 1)
        | (st', none) => (pgRollback st', ins, act))
      (st0, 0, 0)

/-- `upsert_agentes` of `app/etl.py` (lines 428–478): same per-record loop,
but the exception handler only logs and `continue`s — it performs NO
rollback, so after one failing record the transaction stays aborted and every
later record's execute raises `InFailedSqlTransaction` as well.  The
`CREATE TABLE IF NOT EXISTS` preparation is modelled as a no-op on an
existing schema.  Returns the final state and `(insertados, actualizados)`. -/
def upsert_agentes (failsOn : AgenteRec → Bool) (st0 : PgState AgenteRec)
    (agentes : List AgenteRec) : PgState AgenteRec × Nat × Nat :=
  if agentes.isEmpty then (st0, 0, 0)
  else
    agentes.foldl
      (fun acc r =>
        let (st, ins, act) := acc
        match execUpsert (fun a => a.origen_id) failsOn st r with
        | (st', some rc) => if rc == 1 then (st', ins + 1, act) else (st', ins, act + 1)
        | (st', none) => (st', ins, act))
      (st0, 0, 0)

/-- What §4.4 of the spec says `insertados` should be: the number of batch
records whose `origen_id` was absent from the table before the call. -/
def specInsertedCount (rs : List ClienteRec) (t0 : List ClienteRec) : Nat :=
  (rs.filter (fun r => !((t0.map (fun c => c.origen_id)).contains r.origen_id))).length

/-- What §4.4 of the spec says `actualizados` should be: the number of batch
records whose `origen_id` was already present before the call. -/
def specUpdatedCount (rs : List ClienteRec) (t0 : List ClienteRec) : Nat :=
  (rs.filter (fun r => (t0.map (fun c => c.origen_id)).contains r.origen_id)).length

/-- How one `sync_data` call ends: a successful pass, a cooperative abort on
the stop event, abandonment after the retry ceiling, or an uncaught
exception escaping to the caller (the last never happens — every outcome the
code produces is a plain `return`). -/
inductive SyncOutcome
  | completed
  | abortedByStop
  | abandoned
  | raised
deriving DecidableEq, Repr

/-- Observable trace of one `sync_data` call: which attempts ran a pass body,
which backoff sleeps were observed between attempts, and how it ended. -/
structure SyncTrace where
  attempts : List Nat
  sleeps : List Nat
  outcome : SyncOutcome
deriving DecidableEq, Repr

/-- `max_attempts = 3` of `sync_data`. -/
def max_attempts : Nat := 3

/-- `backoffs = [1, 2, 4]` of `sync_data`. -/
def sync_backoffs : List Nat := [1, 2, 4]

/-- `backoffs[min(attempt - 1, len(backoffs) - 1)]`. -/
def backoffFor (attempt : Nat) : Nat :=
  sync_backoffs.getD (min (attempt - 1) (sync_backoffs.length - 1)) 0

/-- The retry loop of `sync_data` (lines 718–866 of `app/etl.py`).
`failsAt n` is the environment: whether the pass body raises on attempt `n`.
`stopSignal i` is the value of `realtime_sync._stop_event.is_set()` at the
`i`-th consultation of the run; consultations happen in program order: the
check at the top of each loop iteration, then — only when the pass body
raised — the check inside the exception handler.  The fuel argument counts
the loop iterations still permitted and starts at `max_attempts`. -/
def syncFrom (failsAt : Nat → Bool) (stopSignal : Nat → Bool) :
    Nat → Nat → Nat → SyncTrace
  | 0, _, _ => ⟨[], [], .raised⟩
  | fuel + 1, attempt, c =>
    if stopSignal c then ⟨[], [], .abortedByStop⟩
    else if failsAt attempt then
      if stopSignal (c + 1) then ⟨[attempt], [], .abortedByStop⟩
      else if attempt == max_attempts then ⟨[attempt], [], .abandoned⟩
      else
        let t := syncFrom failsAt stopSignal fuel (attempt + 1) (c + 2)
        ⟨attempt :: t.attempts, backoffFor attempt :: t.sleeps, t.outcome⟩
    else ⟨[attempt], [], .completed⟩

/-- `sync_data`: attempts are numbered from 1 and the stop event is consulted
first at index 0, before attempt 1 starts. -/
def sync_data (failsAt : Nat → Bool) (stopSignal : Nat → Bool) : SyncTrace :=
  syncFrom failsAt stopSignal max_attempts 1 0

/-- `collections_to_watch` of `RealtimeSync.watch_changes`
(`app/realtime_sync.py`, lines 56–63). -/
def collections_to_watch : List String :=
  ["clientes", "agentes", "servicios", "paquetes_turisticos", "ventas", "detalle_venta"]

/-- The six MongoDB collections one `sync_data` pass actually reads
(`app/etl.py`, lines 758–763: the clientes/agentes aggregations plus the four
`extract_collection` calls). -/
def sync_source_collections : List String :=
  ["clientes", "agentes", "servicios", "paquetesTuristicos", "ventas", "detalleVenta"]

/-- One change-stream notification as the watcher reads it
(`change['operationType']`, `change['ns']['coll']`). -/
structure ChangeEvent where
  operationType : String
  coll : String
deriving DecidableEq, Repr

/-- The notification-consumption loop of `RealtimeSync.watch_changes`
(lines 72–98): for each event — with the stop event clear — a change in a
collection of `collections_to_watch` triggers one synchronous `sync_data()`
call, completed before the next event is consumed.  The returned list is the
sequence of collections for which a sync pass was invoked, in order. -/
def watch_changes (stopSet : Bool) : List ChangeEvent → List String
  | [] => []
  | c :: rest =>
    if stopSet then []
    else if collections_to_watch.contains c.coll then
      if stopSet then []
      else c.coll :: watch_changes stopSet rest
    else watch_changes stopSet rest

theorem pyRef_oid (h : String) (b : Option RefVal) :
    pyRef (some (RefVal.oid h)) b = some (RefVal.oid h) := by
  simp [pyRef, pyOr, otruthy, RefVal.truthy]

theorem pyRef_strv (h : String) (hne : h ≠ "") (b : Option RefVal) :
    pyRef (some (RefVal.strv h)) b = some (RefVal.strv h) := by
  have hb : (h == "") = false := beq_eq_false_iff_ne.mpr hne
  simp [pyRef, pyOr, otruthy, RefVal.truthy, hb]

/-- C1: the claim says every entity type's upsert writer isolates a single
record's failure — caught, logged, transaction reset — so the other N−1
records of the batch are upserted.  Only `upsert_clientes` resets the
transaction; `upsert_agentes` catches and continues WITHOUT rollback, so
after the failing record every later execute raises
`InFailedSqlTransaction`: in a 3-record batch whose middle record fails,
the agentes writer reports only 1 success, the connection ends aborted and
the third record is never written (contrast: clientes reports 2). -/
theorem per_record_isolation_agentes_bug :
    (upsert_agentes (fun r => r.origen_id == "a2") ⟨[], [], false⟩
        [⟨"a1", "Ana", "a@x", none⟩, ⟨"a2", "Beto", "b@x", none⟩,
         ⟨"a3", "Cala", "c@x", none⟩]
      = (⟨[⟨"a1", "Ana", "a@x", none⟩], [], true⟩, 1, 0))
  ∧ (upsert_clientes (fun r => r.origen_id == "c2") ⟨[], [], false⟩
        [⟨"c1", "Ana", "a@x", none, ⟨1, 0⟩⟩, ⟨"c2", "Beto", "b@x", none, ⟨1, 0⟩⟩,
         ⟨"c3", "Cala", "c@x", none, ⟨1, 0⟩⟩]
      = (⟨[⟨"c3", "Cala", "c@x", none, ⟨1, 0⟩⟩], [], false⟩, 2, 0)) := by
  exact ⟨rfl, rfl⟩

/-- C2: the claim says a change in any of the six source collections read by
the sync pass triggers a pass.  The watcher's list spells two of them in
snake case (`paquetes_turisticos`, `detalle_venta`) while the pass reads the
camel-case collections (`paquetesTuristicos`, `detalleVenta`), so changes in
those two collections never trigger a sync; changes in the four matching
names do trigger one synchronous pass each, in order. -/
theorem watcher_collection_name_mismatch :
    "paquetesTuristicos" ∈ sync_source_collections
  ∧ "detalleVenta" ∈ sync_source_collections
  ∧ watch_changes false
      [⟨"insert", "paquetesTuristicos"⟩, ⟨"update", "detalleVenta"⟩] = []
  ∧ watch_changes false
      [⟨"insert", "clientes"⟩, ⟨"update", "ventas"⟩] = ["clientes", "ventas"] := by
  refine ⟨by simp [sync_source_collections], by simp [sync_source_collections], rfl, rfl⟩

/-- C3: the claim says `insertados` counts records whose `origen_id` was
absent before the call and `actualizados` those already present.  But
`INSERT ... ON CONFLICT DO UPDATE` reports `rowcount = 1` on the update path
too, so the `rowcount == 1` test counts every successful upsert as inserted:
a 1-record batch whose key is already in the table returns `(1, 0)` where
the spec's reading demands `(0, 1)`. -/
theorem upsert_counts_rowcount_bug :
    (upsert_clientes (fun _ => false)
        ⟨[⟨"c1", "Vieja", "v@x", none, ⟨1, 0⟩⟩], [⟨"c1", "Vieja", "v@x", none, ⟨1, 0⟩⟩], false⟩
        [⟨"c1", "Nueva", "n@x", none, ⟨2, 0⟩⟩]
      = (⟨[⟨"c1", "Nueva", "n@x", none, ⟨2, 0⟩⟩],
          [⟨"c1", "Vieja", "v@x", none, ⟨1, 0⟩⟩], false⟩, 1, 0))
  ∧ specInsertedCount [⟨"c1", "Nueva", "n@x", none, ⟨2, 0⟩⟩]
      [⟨"c1", "Vieja", "v@x", none, ⟨1, 0⟩⟩] = 0
  ∧ specUpdatedCount [⟨"c1", "Nueva", "n@x", none, ⟨2, 0⟩⟩]
      [⟨"c1", "Vieja", "v@x", none, ⟨1, 0⟩⟩] = 1 := by
  exact ⟨rfl, rfl, rfl⟩

theorem lastWith_none_not_mem {ρ : Type} (kf : ρ → String) (k : String) :
    ∀ rs : List ρ, lastWith kf k rs = none → k ∉ rs.map kf := by
  intro rs
  induction rs with
  | nil => intro _; simp
  | cons r rs ih =>
    intro h
    rw [lastWith] at h
    cases hl : lastWith kf k rs with
    | some x => rw [hl] at h; exact absurd h (by simp)
    | none =>
      rw [hl] at h
      by_cases hr : kf r = k
      · rw [if_pos hr] at h; exact absurd h (by simp)
      · intro hmem
        simp only [List.map_cons, List.mem_cons] at hmem
        rcases hmem with he | hm
        · exact hr he.symm
        · exact ih hl hm

theorem keys_upsertAllBy_congr {ρ : Type} (kf : ρ → String) :
    ∀ (rs₁ rs₂ t₁ t₂ : List ρ), rs₁.map kf = rs₂.map kf → t₁.map kf = t₂.map kf →
      (upsertAllBy kf rs₁ t₁).map kf = (upsertAllBy kf rs₂ t₂).map kf := by
  intro rs₁
  induction rs₁ with
  | nil =>
    intro rs₂ t₁ t₂ hk ht
    cases rs₂ with
    | nil => exact ht
    | cons r₂ rs₂' => simp at hk
  | cons r rs ih =>
    intro rs₂ t₁ t₂ hk ht
    cases rs₂ with
    | nil => simp at hk
    | cons r₂ rs₂' =>
      simp only [List.map_cons, List.cons.injEq] at hk
      obtain ⟨hkr, hkt⟩ := hk
      rw [upsertAllBy_cons, upsertAllBy_cons]
      refine ih rs₂' _ _ hkt ?_
      rw [keys_upsertBy, keys_upsertBy, hkr, ht]

/-- A batch with the same key sequence as another absorbs it: upserting
`rs₂` after `rs₁` (same keys, possibly different values) equals upserting
`rs₂` alone — the later write wins on every key. -/
theorem upsertAllBy_absorb {ρ : Type} (kf : ρ → String) (rs₁ rs₂ t : List ρ)
    (hk : rs₁.map kf = rs₂.map kf) (hnd : (t.map kf).Nodup) :
    upsertAllBy kf rs₂ (upsertAllBy kf rs₁ t) = upsertAllBy kf rs₂ t := by
  apply table_ext kf
  · have h1 : (upsertAllBy kf rs₂ (upsertAllBy kf rs₁ t)).map kf
        = (upsertAllBy kf rs₁ t).map kf := by
      refine keys_upsertAllBy_covered kf rs₂ _ ?_
      intro r hr
      have hmem : kf r ∈ rs₁.map kf := by
        rw [hk]; exact List.mem_map_of_mem kf hr
      obtain ⟨r', hr', hkr⟩ := List.mem_map.mp hmem
      exact hkr ▸ batch_key_mem_upsertAllBy kf rs₁ t r' hr'
    have h2 : (upsertAllBy kf rs₁ t).map kf = (upsertAllBy kf rs₂ t).map kf :=
      keys_upsertAllBy_congr kf rs₁ rs₂ t t hk rfl
    exact h1.trans h2
  · intro k
    rw [findBy_upsertAllBy kf k rs₂ (upsertAllBy kf rs₁ t),
        findBy_upsertAllBy kf k rs₁ t, findBy_upsertAllBy kf k rs₂ t]
    cases hlast : lastWith kf k rs₂ with
    | some x => rfl
    | none =>
      have hmem2 : k ∉ rs₂.map kf := lastWith_none_not_mem kf k rs₂ hlast
      have hmem1 : k ∉ rs₁.map kf := by rw [hk]; exact hmem2
      rw [lastWith_eq_none kf k rs₁ hmem1]
  · exact nodup_keys_upsertAllBy kf rs₂ _ (nodup_keys_upsertAllBy kf rs₁ t hnd)

theorem upsertAllBy_iterate_idem {ρ : Type} (kf : ρ → String) (rs : List ρ)
    (f : List ρ → List ρ) (hf : ∀ x, f x = upsertAllBy kf rs x)
    (t : List ρ) (N : Nat) (hN : 1 ≤ N) (hnd : (t.map kf).Nodup) :
    f^[N] t = f t := by
  induction N with
  | zero => cases hN
  | succ m ih =>
    cases m with
    | zero => simp
    | succ m' =>
      rw [Function.iterate_succ_apply', ih (Nat.succ_le_succ (Nat.zero_le m')),
        hf (f t), hf t]
      exact upsertAllBy_idem kf rs t hnd

/-- The key (`origen_id`) sequence of a mapped clientes batch does not depend
on the wall clock: only the defaulted date column does. -/
theorem mapCliente_keys_congr (docs : List ClienteDoc) (now1 now2 : PyDateTime) :
    ((docs.filterMap (map_cliente now1)).map (fun r => r.origen_id))
      = ((docs.filterMap (map_cliente now2)).map (fun r => r.origen_id)) := by
  induction docs with
  | nil => rfl
  | cons d ds ih =>
    cases hdm : d.mid with
    | none => simp [List.filterMap_cons, map_cliente, hdm, ih]
    | some idv =>
      cases ht : idv.truthy with
      | false => simp [List.filterMap_cons, map_cliente, hdm, ht, ih]
      | true => simp [List.filterMap_cons, map_cliente, hdm, ht, ih]

/-- Likewise for a mapped ventas batch (fixed parser and identifier maps). -/
theorem mapVenta_keys_congr (parse : String → Option PyDateTime)
    (cm am : List (String × Int)) (docs : List VentaDoc) (now1 now2 : PyDateTime) :
    ((docs.filterMap (map_venta parse now1 cm am)).map (fun r => r.origen_id))
      = ((docs.filterMap (map_venta parse now2 cm am)).map (fun r => r.origen_id)) := by
  induction docs with
  | nil => rfl
  | cons d ds ih =>
    cases hdm : d.mid with
    | none => simp [List.filterMap_cons, map_venta, hdm, ih]
    | some idv =>
      cases ht : idv.truthy with
      | false => simp [List.filterMap_cons, map_venta, hdm, ht, ih]
      | true => simp [List.filterMap_cons, map_venta, hdm, ht, ih]

/-- C4 counterexample: the claim as stated fails on the code.  A snapshot
with one client lacking both date keys, pushed through two passes at clock
instants 0 and 1, leaves a different table (the `fecha_registro` column got
overwritten with the second clock value) than the single first pass. -/
theorem full_pass_idempotent_counterexample :
    passClientes ⟨1, 0⟩ [⟨some (RefVal.oid "c1"), none, none, none⟩]
        (passClientes ⟨0, 0⟩ [⟨some (RefVal.oid "c1"), none, none, none⟩] [])
      ≠ passClientes ⟨0, 0⟩ [⟨some (RefVal.oid "c1"), none, none, none⟩] [] := by
  decide

/-- C4 (amended): running a stage of the full pass N ≥ 1 times over a fixed
source snapshot — the i-th run at clock time `tᵢ` — leaves the table with
the same row list (hence row count and column values) as running it exactly
once at the LAST run's clock: re-applying the same record list converges to
one row per distinct `origen_id` with the latest values.  With equal clocks
(or date fields present everywhere) this is idempotence as claimed; the
clock-defaulted date columns are the only deviation.  Stated for all six
entity stages (`nows ++ [last]` is the nonempty clock sequence of the
clock-dependent stages; the clock-free stages are iterated N times). -/
theorem full_pass_converges_to_last :
    (∀ (docs : List ClienteDoc) (t : List ClienteRec) (nows : List PyDateTime)
        (last : PyDateTime), (t.map (fun r => r.origen_id)).Nodup →
        (nows ++ [last]).foldl (fun acc now => passClientes now docs acc) t
          = passClientes last docs t)
  ∧ (∀ (docs : List AgenteDoc) (t : List AgenteRec) (N : Nat), 1 ≤ N →
        (t.map (fun r => r.origen_id)).Nodup →
        (passAgentes docs)^[N] t = passAgentes docs t)
  ∧ (∀ (docs : List ServicioDoc) (t : List ServicioRec) (N : Nat), 1 ≤ N →
        (t.map (fun r => r.origen_id)).Nodup →
        (passServicios docs)^[N] t = passServicios docs t)
  ∧ (∀ (docs : List PaqueteDoc) (t : List PaqueteRec) (N : Nat), 1 ≤ N →
        (t.map (fun r => r.origen_id)).Nodup →
        (passPaquetes docs)^[N] t = passPaquetes docs t)
  ∧ (∀ (parse : String → Option PyDateTime) (cm am : List (String × Int))
        (docs : List VentaDoc) (t : List VentaRec) (nows : List PyDateTime)
        (last : PyDateTime), (t.map (fun r => r.origen_id)).Nodup →
        (nows ++ [last]).foldl (fun acc now => passVentas parse now cm am docs acc) t
          = passVentas parse last cm am docs t)
  ∧ (∀ (vm sm pm : List (String × Int)) (docs : List DetalleDoc)
        (t : List DetalleRec) (N : Nat), 1 ≤ N →
        (t.map (fun r => r.origen_id)).Nodup →
        (passDetalles vm sm pm docs)^[N] t = passDetalles vm sm pm docs t) := by
  refine ⟨?_, ?_, ?_, ?_, ?_, ?_⟩
  · intro docs t nows last hnd
    induction nows generalizing t with
    | nil => rfl
    | cons n ns ih =>
      simp only [List.cons_append, List.foldl_cons]
      rw [ih (passClientes n docs t)
        (nodup_keys_upsertAllBy (fun r => r.origen_id) (docs.filterMap (map_cliente n)) t hnd)]
      exact upsertAllBy_absorb (fun r => r.origen_id)
        (docs.filterMap (map_cliente n)) (docs.filterMap (map_cliente last)) t
        (mapCliente_keys_congr docs n last) hnd
  · intro docs t N hN hnd
    exact upsertAllBy_iterate_idem (fun r => r.origen_id) (docs.filterMap map_agente)
      (passAgentes docs) (fun x => by rfl) t N hN hnd
  · intro docs t N hN hnd
    exact upsertAllBy_iterate_idem (fun r => r.origen_id) (docs.filterMap map_servicio)
      (passServicios docs) (fun x => by rfl) t N hN hnd
  · intro docs t N hN hnd
    exact upsertAllBy_iterate_idem (fun r => r.origen_id)
      (docs.filterMap map_paquete_turistico) (passPaquetes docs) (fun x => by rfl) t N hN hnd
  · intro parse cm am docs t nows last hnd
    induction nows generalizing t with
    | nil => rfl
    | cons n ns ih =>
      simp only [List.cons_append, List.foldl_cons]
      rw [ih (passVentas parse n cm am docs t)
        (nodup_keys_upsertAllBy (fun r => r.origen_id)
          (docs.filterMap (map_venta parse n cm am)) t hnd)]
      exact upsertAllBy_absorb (fun r => r.origen_id)
        (docs.filterMap (map_venta parse n cm am))
        (docs.filterMap (map_venta parse last cm am)) t
        (mapVenta_keys_congr parse cm am docs n last) hnd
  · intro vm sm pm docs t N hN hnd
    exact upsertAllBy_iterate_idem (fun r => r.origen_id)
      (docs.filterMap (map_detalle_venta vm sm pm)) (passDetalles vm sm pm docs)
      (fun x => by rfl) t N hN hnd

theorem full_pass_converges_to_last_witness :
    ([(⟨0, 0⟩ : PyDateTime)] ++ [(⟨1, 0⟩ : PyDateTime)]).foldl
        (fun acc now => passClientes now [⟨some (RefVal.oid "c1"), none, none, none⟩] acc) []
      = passClientes ⟨1, 0⟩ [⟨some (RefVal.oid "c1"), none, none, none⟩] []
  ∧ (passAgentes [⟨some (RefVal.oid "a1"), none⟩])^[2] []
      = passAgentes [⟨some (RefVal.oid "a1"), none⟩] []
  ∧ (passServicios [⟨some (RefVal.oid "s1"), none, none, none, none, none, none⟩])^[2] []
      = passServicios [⟨some (RefVal.oid "s1"), none, none, none, none, none, none⟩] []
  ∧ (passPaquetes [⟨some (RefVal.oid "p1"), none, none, none, none⟩])^[2] []
      = passPaquetes [⟨some (RefVal.oid "p1"), none, none, none, none⟩] []
  ∧ ([(⟨0, 0⟩ : PyDateTime)] ++ [(⟨1, 0⟩ : PyDateTime)]).foldl
        (fun acc now => passVentas (fun _ => none) now [] []
          [⟨some (RefVal.oid "v1"), none, none, none, none, none, none, none,
            none, none, none, none, none, none, none⟩] acc) []
      = passVentas (fun _ => none) ⟨1, 0⟩ [] []
          [⟨some (RefVal.oid "v1"), none, none, none, none, none, none, none,
            none, none, none, none, none, none, none⟩] []
  ∧ (passDetalles [] [] []
        [⟨some (RefVal.oid "l1"), none, none, none, none, none, none, none,
          none, none, none, none⟩])^[2] []
      = passDetalles [] [] []
        [⟨some (RefVal.oid "l1"), none, none, none, none, none, none, none,
          none, none, none, none⟩] [] :=
  ⟨full_pass_converges_to_last.1 [⟨some (RefVal.oid "c1"), none, none, none⟩] []
      [⟨0, 0⟩] ⟨1, 0⟩ (by decide),
   full_pass_converges_to_last.2.1 [⟨some (RefVal.oid "a1"), none⟩] [] 2
      (by decide) (by decide),
   full_pass_converges_to_last.2.2.1
      [⟨some (RefVal.oid "s1"), none, none, none, none, none, none⟩] [] 2
      (by decide) (by decide),
   full_pass_converges_to_last.2.2.2.1
      [⟨some (RefVal.oid "p1"), none, none, none, none⟩] [] 2
      (by decide) (by decide),
   full_pass_converges_to_last.2.2.2.2.1 (fun _ => none) [] []
      [⟨some (RefVal.oid "v1"), none, none, none, none, none, none, none,
        none, none, none, none, none, none, none⟩] [] [⟨0, 0⟩] ⟨1, 0⟩ (by decide),
   full_pass_converges_to_last.2.2.2.2.2 [] [] []
      [⟨some (RefVal.oid "l1"), none, none, none, none, none, none, none,
        none, none, none, none⟩] [] 2 (by decide) (by decide)⟩

/-- C5: a reference field supplied as a native `ObjectId` and the same field
supplied as its (non-empty) canonical string encoding are looked up through
the identical `str()` form, so the mapped sale / sale-line record — in
particular its resolved foreign key — is identical. -/
theorem ref_type_drift_equal (parse : String → Option PyDateTime) (now : PyDateTime)
    (cm am vm sm pm : List (String × Int)) (d : VentaDoc) (e : DetalleDoc)
    (h : String) (hne : h ≠ "") :
    (map_venta parse now cm am { d with clienteId := some (RefVal.oid h) }
      = map_venta parse now cm am { d with clienteId := some (RefVal.strv h) })
  ∧ (map_venta parse now cm am { d with agenteId := some (RefVal.oid h) }
      = map_venta parse now cm am { d with agenteId := some (RefVal.strv h) })
  ∧ (map_detalle_venta vm sm pm { e with ventaId := some (RefVal.oid h) }
      = map_detalle_venta vm sm pm { e with ventaId := some (RefVal.strv h) })
  ∧ (map_detalle_venta vm sm pm { e with servicioId := some (RefVal.oid h) }
      = map_detalle_venta vm sm pm { e with servicioId := some (RefVal.strv h) })
  ∧ (map_detalle_venta vm sm pm { e with paqueteId := some (RefVal.oid h) }
      = map_detalle_venta vm sm pm { e with paqueteId := some (RefVal.strv h) }) := by
  refine ⟨?_, ?_, ?_, ?_, ?_⟩ <;>
    simp only [map_venta, map_detalle_venta, resolveFk, ventaEstado, ventaFecha,
      ventaMonto, pyRef_oid, pyRef_strv h hne, RefVal.toStr]

theorem ref_type_drift_equal_witness :
    map_venta (fun _ => none) ⟨0, 0⟩ [("abc", 7)] []
        { mid := some (RefVal.oid "v1"), clienteId := some (RefVal.oid "abc"),
          cliente_id := none, agenteId := none, agente_id := none,
          estadoVenta := none, estado_venta := none, estado := none,
          fechaVenta := none, fecha_venta := none, montoTotal := none,
          monto_total := none, monto := none, puntuacionSatisfaccion := none,
          puntuacion_satisfaccion := none }
      = map_venta (fun _ => none) ⟨0, 0⟩ [("abc", 7)] []
        { mid := some (RefVal.oid "v1"), clienteId := some (RefVal.strv "abc"),
          cliente_id := none, agenteId := none, agente_id := none,
          estadoVenta := none, estado_venta := none, estado := none,
          fechaVenta := none, fecha_venta := none, montoTotal := none,
          monto_total := none, monto := none, puntuacionSatisfaccion := none,
          puntuacion_satisfaccion := none } :=
  (ref_type_drift_equal (fun _ => none) ⟨0, 0⟩ [("abc", 7)] [] [] [] []
    { mid := some (RefVal.oid "v1"), clienteId := none,
      cliente_id := none, agenteId := none, agente_id := none,
      estadoVenta := none, estado_venta := none, estado := none,
      fechaVenta := none, fecha_venta := none, montoTotal := none,
      monto_total := none, monto := none, puntuacionSatisfaccion := none,
      puntuacion_satisfaccion := none }
    { mid := none, ventaId := none, venta_id := none, servicioId := none,
      servicio_id := none, paqueteId := none, paquete_id := none,
      descripcion := none, cantidad := none, precioUnitario := none,
      precio_unitario := none, subtotal := none }
    "abc" (by decide)).1

/-- C6: when every pass attempt fails and the stop event is never set,
`sync_data` runs exactly three attempts, sleeps 1s then 2s between
consecutive attempts, and after the third failure ends with the abandoned
(logged) outcome — a plain return, not a raised exception. -/
theorem sync_retry_ceiling (failsAt stopSignal : Nat → Bool)
    (hfail : ∀ n, failsAt n = true) (hstop : ∀ i, stopSignal i = false) :
    sync_data failsAt stopSignal = ⟨[1, 2, 3], [1, 2], SyncOutcome.abandoned⟩ := by
  simp [sync_data, syncFrom, hfail, hstop, max_attempts, backoffFor, sync_backoffs]

theorem sync_retry_ceiling_witness :
    sync_data (fun _ => true) (fun _ => false) = ⟨[1, 2, 3], [1, 2], SyncOutcome.abandoned⟩ :=
  sync_retry_ceiling (fun _ => true) (fun _ => false) (fun _ => rfl) (fun _ => rfl)

theorem syncFrom_attempt_checks (failsAt stopSignal : Nat → Bool) :
    ∀ (fuel a c x : Nat), x ∈ (syncFrom failsAt stopSignal fuel a c).attempts →
      a ≤ x ∧ stopSignal (c + 2 * (x - a)) = false := by
  intro fuel
  induction fuel with
  | zero =>
    intro a c x hx
    simp [syncFrom] at hx
  | succ fuel ih =>
    intro a c x hx
    rw [syncFrom] at hx
    cases h0 : stopSignal c with
    | true => simp [h0] at hx
    | false =>
      cases hf : failsAt a with
      | false =>
        simp [h0, hf] at hx
        subst hx
        exact ⟨Nat.le_refl _, by simpa using h0⟩
      | true =>
        cases h1 : stopSignal (c + 1) with
        | true =>
          simp [h0, hf, h1] at hx
          subst hx
          exact ⟨Nat.le_refl _, by simpa using h0⟩
        | false =>
          cases hmax : (a == max_attempts) with
          | true =>
            simp [h0, hf, h1, hmax] at hx
            subst hx
            exact ⟨Nat.le_refl _, by simpa using h0⟩
          | false =>
            simp [h0, hf, h1, hmax] at hx
            rcases hx with rfl | hx
            · exact ⟨Nat.le_refl x, by simpa using h0⟩
            · obtain ⟨hax, hsx⟩ := ih (a + 1) (c + 2) x hx
              refine ⟨Nat.le_of_succ_le hax, ?_⟩
              have harith : c + 2 + 2 * (x - (a + 1)) = c + 2 * (x - a) := by omega
              rw [harith] at hsx
              exact hsx

theorem syncFrom_no_raise (failsAt stopSignal : Nat → Bool) :
    ∀ (fuel a c : Nat), fuel + a = max_attempts + 1 → 1 ≤ fuel →
      (syncFrom failsAt stopSignal fuel a c).outcome ≠ SyncOutcome.raised := by
  intro fuel
  induction fuel with
  | zero =>
    intro a c _ h1
    omega
  | succ fuel ih =>
    intro a c hinv _
    rw [syncFrom]
    cases h0 : stopSignal c with
    | true => simp
    | false =>
      cases hf : failsAt a with
      | false => simp
      | true =>
        cases h1 : stopSignal (c + 1) with
        | true => simp
        | false =>
          cases hmax : (a == max_attempts) with
          | true => simp [h0, hf, h1, hmax]
          | false =>
            simp only [h0, hf, h1, hmax, Bool.false_eq_true, if_false, if_true, cond_false]
            have hane : a ≠ max_attempts := by simpa using hmax
            have h3 : max_attempts = 3 := rfl
            rw [h3] at hinv hane
            exact ih (a + 1) (c + 2) (by rw [h3]; omega) (by omega)

/-- C8: once the external stop event is set — modelled as becoming (and
staying) set from consultation index `k` on — `sync_data` never begins a new
attempt: every attempt that runs had its top-of-loop consultation (index
`2·(x−1)`) strictly before `k`; the call never raises; and a signal already
set at the first consultation aborts immediately with no attempt run and no
retry consumed. -/
theorem stop_signal_no_new_attempt (failsAt : Nat → Bool) (k : Nat) :
    (∀ x ∈ (sync_data failsAt (fun i => decide (k ≤ i))).attempts, 2 * (x - 1) < k)
  ∧ (sync_data failsAt (fun i => decide (k ≤ i))).outcome ≠ SyncOutcome.raised
  ∧ (k = 0 → sync_data failsAt (fun i => decide (k ≤ i)) = ⟨[], [], SyncOutcome.abortedByStop⟩) := by
  refine ⟨?_, ?_, ?_⟩
  · intro x hx
    obtain ⟨hax, hsx⟩ := syncFrom_attempt_checks failsAt _ max_attempts 1 0 x hx
    have : ¬ (k ≤ 0 + 2 * (x - 1)) := of_decide_eq_false hsx
    omega
  · exact syncFrom_no_raise failsAt _ max_attempts 1 0 (by rfl) (by decide)
  · intro hk
    subst hk
    rfl

theorem stop_signal_no_new_attempt_witness :
    sync_data (fun _ => true) (fun i => decide ((0 : Nat) ≤ i))
      = ⟨[], [], SyncOutcome.abortedByStop⟩ :=
  (stop_signal_no_new_attempt (fun _ => true) 0).2.2 rfl

/-- C7: per reference: a sale whose client (resp. agent) reference is
missing from the corresponding identifier map, and a sale-line whose sale
(resp. service, package) reference does not resolve, are still mapped — the
mapper returns a record, never failing on the unresolved reference — and the
foreign key FOR THAT reference is null, whatever the other references do. -/
theorem unresolved_ref_null_fk :
    (∀ (parse : String → Option PyDateTime) (now : PyDateTime)
        (cm am : List (String × Int)) (d : VentaDoc) (idv : RefVal),
        d.mid = some idv → idv.truthy = true →
        (∀ v, pyRef d.clienteId d.cliente_id = some v → List.lookup v.toStr cm = none) →
        ∃ r, map_venta parse now cm am d = some r ∧ r.cliente_id = none)
  ∧ (∀ (parse : String → Option PyDateTime) (now : PyDateTime)
        (cm am : List (String × Int)) (d : VentaDoc) (idv : RefVal),
        d.mid = some idv → idv.truthy = true →
        (∀ v, pyRef d.agenteId d.agente_id = some v → List.lookup v.toStr am = none) →
        ∃ r, map_venta parse now cm am d = some r ∧ r.agente_id = none)
  ∧ (∀ (vm sm pm : List (String × Int)) (e : DetalleDoc) (ide : RefVal),
        e.mid = some ide → ide.truthy = true →
        (∀ v, pyRef e.ventaId e.venta_id = some v → List.lookup v.toStr vm = none) →
        ∃ q, map_detalle_venta vm sm pm e = some q ∧ q.venta_id = none)
  ∧ (∀ (vm sm pm : List (String × Int)) (e : DetalleDoc) (ide : RefVal),
        e.mid = some ide → ide.truthy = true →
        (∀ v, pyRef e.servicioId e.servicio_id = some v → List.lookup v.toStr sm = none) →
        ∃ q, map_detalle_venta vm sm pm e = some q ∧ q.servicio_id = none)
  ∧ (∀ (vm sm pm : List (String × Int)) (e : DetalleDoc) (ide : RefVal),
        e.mid = some ide → ide.truthy = true →
        (∀ v, pyRef e.paqueteId e.paquete_id = some v → List.lookup v.toStr pm = none) →
        ∃ q, map_detalle_venta vm sm pm e = some q ∧ q.paquete_id = none) := by
  refine ⟨?_, ?_, ?_, ?_, ?_⟩
  · intro parse now cm am d idv hdi hdt hc
    have hcid : resolveFk cm d.clienteId d.cliente_id = none := by
      rw [resolveFk]
      cases hcv : pyRef d.clienteId d.cliente_id with
      | none => rfl
      | some v => exact hc v hcv
    refine ⟨{ origen_id := idv.toStr
              cliente_id := resolveFk cm d.clienteId d.cliente_id
              agente_id := resolveFk am d.agenteId d.agente_id
              estado := ventaEstado d
              monto := ventaMonto d
              fecha_venta := ventaFecha parse now d
              puntuacion_satisfaccion :=
                pyOr numTruthy d.puntuacionSatisfaccion d.puntuacion_satisfaccion },
            ?_, hcid⟩
    simp only [map_venta, hdi, hdt, if_true]
  · intro parse now cm am d idv hdi hdt ha
    have haid : resolveFk am d.agenteId d.agente_id = none := by
      rw [resolveFk]
      cases hav : pyRef d.agenteId d.agente_id with
      | none => rfl
      | some v => exact ha v hav
    refine ⟨{ origen_id := idv.toStr
              cliente_id := resolveFk cm d.clienteId d.cliente_id
              agente_id := resolveFk am d.agenteId d.agente_id
              estado := ventaEstado d
              monto := ventaMonto d
              fecha_venta := ventaFecha parse now d
              puntuacion_satisfaccion :=
                pyOr numTruthy d.puntuacionSatisfaccion d.puntuacion_satisfaccion },
            ?_, haid⟩
    simp only [map_venta, hdi, hdt, if_true]
  · intro vm sm pm e ide hei het hv
    have hvid : resolveFk vm e.ventaId e.venta_id = none := by
      rw [resolveFk]
      cases hvv : pyRef e.ventaId e.venta_id with
      | none => rfl
      | some v => exact hv v hvv
    refine ⟨{ origen_id := ide.toStr
              venta_id := resolveFk vm e.ventaId e.venta_id
              servicio_id := resolveFk sm e.servicioId e.servicio_id
              paquete_id := resolveFk pm e.paqueteId e.paquete_id
              descripcion := e.descripcion.getD ""
              cantidad := e.cantidad.getD 1
              precio_unitario :=
                (pyOr numTruthy (pyOr numTruthy e.precioUnitario e.precio_unitario)
                  (some 0)).getD 0
              subtotal := e.subtotal.getD 0 },
            ?_, hvid⟩
    simp only [map_detalle_venta, hei, het, if_true]
  · intro vm sm pm e ide hei het hs
    have hsid : resolveFk sm e.servicioId e.servicio_id = none := by
      rw [resolveFk]
      cases hsv : pyRef e.servicioId e.servicio_id with
      | none => rfl
      | some v => exact hs v hsv
    refine ⟨{ origen_id := ide.toStr
              venta_id := resolveFk vm e.ventaId e.venta_id
              servicio_id := resolveFk sm e.servicioId e.servicio_id
              paquete_id := resolveFk pm e.paqueteId e.paquete_id
              descripcion := e.descripcion.getD ""
              cantidad := e.cantidad.getD 1
              precio_unitario :=
                (pyOr numTruthy (pyOr numTruthy e.precioUnitario e.precio_unitario)
                  (some 0)).getD 0
              subtotal := e.subtotal.getD 0 },
            ?_, hsid⟩
    simp only [map_detalle_venta, hei, het, if_true]
  · intro vm sm pm e ide hei het hp
    have hpid : resolveFk pm e.paqueteId e.paquete_id = none := by
      rw [resolveFk]
      cases hpv : pyRef e.paqueteId e.paquete_id with
      | none => rfl
      | some v => exact hp v hpv
    refine ⟨{ origen_id := ide.toStr
              venta_id := resolveFk vm e.ventaId e.venta_id
              servicio_id := resolveFk sm e.servicioId e.servicio_id
              paquete_id := resolveFk pm e.paqueteId e.paquete_id
              descripcion := e.descripcion.getD ""
              cantidad := e.cantidad.getD 1
              precio_unitario :=
                (pyOr numTruthy (pyOr numTruthy e.precioUnitario e.precio_unitario)
                  (some 0)).getD 0
              subtotal := e.subtotal.getD 0 },
            ?_, hpid⟩
    simp only [map_detalle_venta, hei, het, if_true]

theorem unresolved_ref_null_fk_witness :
    (∃ r, map_venta (fun _ => none) ⟨0, 0⟩ [] [("a1", 3)]
        ⟨some (RefVal.oid "v1"), some (RefVal.oid "c1"), none, some (RefVal.oid "a1"),
         none, none, none, none, none, none, none, none, none, none, none⟩ = some r
        ∧ r.cliente_id = none)
  ∧ (∃ r, map_venta (fun _ => none) ⟨0, 0⟩ [("c1", 2)] []
        ⟨some (RefVal.oid "v1"), some (RefVal.oid "c1"), none, some (RefVal.oid "a1"),
         none, none, none, none, none, none, none, none, none, none, none⟩ = some r
        ∧ r.agente_id = none)
  ∧ (∃ q, map_detalle_venta [] [("s1", 4)] [("p1", 5)]
        ⟨some (RefVal.oid "l1"), some (RefVal.oid "v1"), none, some (RefVal.oid "s1"),
         none, some (RefVal.oid "p1"), none, none, none, none, none, none⟩ = some q
        ∧ q.venta_id = none)
  ∧ (∃ q, map_detalle_venta [("v1", 6)] [] [("p1", 5)]
        ⟨some (RefVal.oid "l1"), some (RefVal.oid "v1"), none, some (RefVal.oid "s1"),
         none, some (RefVal.oid "p1"), none, none, none, none, none, none⟩ = some q
        ∧ q.servicio_id = none)
  ∧ (∃ q, map_detalle_venta [("v1", 6)] [("s1", 4)] []
        ⟨some (RefVal.oid "l1"), some (RefVal.oid "v1"), none, some (RefVal.oid "s1"),
         none, some (RefVal.oid "p1"), none, none, none, none, none, none⟩ = some q
        ∧ q.paquete_id = none) :=
  ⟨unresolved_ref_null_fk.1 (fun _ => none) ⟨0, 0⟩ [] [("a1", 3)]
      ⟨some (RefVal.oid "v1"), some (RefVal.oid "c1"), none, some (RefVal.oid "a1"),
       none, none, none, none, none, none, none, none, none, none, none⟩
      (RefVal.oid "v1") rfl rfl (fun _ _ => rfl),
   unresolved_ref_null_fk.2.1 (fun _ => none) ⟨0, 0⟩ [("c1", 2)] []
      ⟨some (RefVal.oid "v1"), some (RefVal.oid "c1"), none, some (RefVal.oid "a1"),
       none, none, none, none, none, none, none, none, none, none, none⟩
      (RefVal.oid "v1") rfl rfl (fun _ _ => rfl),
   unresolved_ref_null_fk.2.2.1 [] [("s1", 4)] [("p1", 5)]
      ⟨some (RefVal.oid "l1"), some (RefVal.oid "v1"), none, some (RefVal.oid "s1"),
       none, some (RefVal.oid "p1"), none, none, none, none, none, none⟩
      (RefVal.oid "l1") rfl rfl (fun _ _ => rfl),
   unresolved_ref_null_fk.2.2.2.1 [("v1", 6)] [] [("p1", 5)]
      ⟨some (RefVal.oid "l1"), some (RefVal.oid "v1"), none, some (RefVal.oid "s1"),
       none, some (RefVal.oid "p1"), none, none, none, none, none, none⟩
      (RefVal.oid "l1") rfl rfl (fun _ _ => rfl),
   unresolved_ref_null_fk.2.2.2.2 [("v1", 6)] [("s1", 4)] []
      ⟨some (RefVal.oid "l1"), some (RefVal.oid "v1"), none, some (RefVal.oid "s1"),
       none, some (RefVal.oid "p1"), none, none, none, none, none, none⟩
      (RefVal.oid "l1") rfl rfl (fun _ _ => rfl)⟩

/-- C9: a pass never deletes: any row of the clientes table whose
`origen_id` does not occur among the mapped records of the snapshot is still
found, with unchanged column values, after the pass — the writers only ever
`INSERT ... ON CONFLICT DO UPDATE`, there is no delete path. -/
theorem pass_never_deletes (now : PyDateTime) (docs : List ClienteDoc)
    (t : List ClienteRec) (r : ClienteRec)
    (hnd : (t.map (fun x => x.origen_id)).Nodup) (hr : r ∈ t)
    (habs : r.origen_id ∉ (docs.filterMap (map_cliente now)).map (fun x => x.origen_id)) :
    findBy (fun x => x.origen_id) r.origen_id (passClientes now docs t) = some r := by
  show findBy (fun x => x.origen_id) r.origen_id
      (upsertAllBy (fun x => x.origen_id) (docs.filterMap (map_cliente now)) t) = some r
  rw [findBy_upsertAllBy, lastWith_eq_none _ _ _ habs]
  exact findBy_self (fun x => x.origen_id) r t hnd hr

theorem pass_never_deletes_witness :
    findBy (fun x => x.origen_id) "keep"
      (passClientes ⟨0, 0⟩ [⟨some (RefVal.oid "c9"), none, none, none⟩]
        [⟨"keep", "Nadia", "n@x", none, ⟨0, 0⟩⟩])
      = some ⟨"keep", "Nadia", "n@x", none, ⟨0, 0⟩⟩ :=
  pass_never_deletes ⟨0, 0⟩ [⟨some (RefVal.oid "c9"), none, none, none⟩]
    [⟨"keep", "Nadia", "n@x", none, ⟨0, 0⟩⟩] ⟨"keep", "Nadia", "n@x", none, ⟨0, 0⟩⟩
    (by decide) (by decide) (by decide)

/-- C10: the mappers are wall-clock independent exactly when the date field
is present and usable: a client document carrying `fechaRegistro` maps
identically at any two instants, but one lacking both date keys — and a sale
document lacking both date keys, or carrying an unparsable date string —
picks up `datetime.now()` (resp. its `.date()`), so the same document mapped
at two different instants (for the sale: on two different days) yields
different records. -/
theorem mapper_wallclock_dependence :
    (∀ (d : ClienteDoc) (now1 now2 : PyDateTime) (idv : RefVal),
        d.mid = some idv → idv.truthy = true →
        d.fechaRegistro = none → d.fecha_registro = none → now1 ≠ now2 →
        map_cliente now1 d ≠ map_cliente now2 d)
  ∧ (∀ (d : ClienteDoc) (t : PyDateTime) (now1 now2 : PyDateTime),
        d.fechaRegistro = some t → map_cliente now1 d = map_cliente now2 d)
  ∧ (∀ (parse : String → Option PyDateTime) (cm am : List (String × Int))
        (d : VentaDoc) (now1 now2 : PyDateTime) (idv : RefVal),
        d.mid = some idv → idv.truthy = true →
        d.fechaVenta = none → d.fecha_venta = none →
        now1.dateOf ≠ now2.dateOf →
        map_venta parse now1 cm am d ≠ map_venta parse now2 cm am d)
  ∧ (∀ (parse : String → Option PyDateTime) (cm am : List (String × Int))
        (d : VentaDoc) (now1 now2 : PyDateTime) (idv : RefVal) (s : String),
        d.mid = some idv → idv.truthy = true →
        d.fechaVenta = some (DateVal.dstr s) → s ≠ "" →
        parse (s.replace "Z" "+00:00") = none →
        now1.dateOf ≠ now2.dateOf →
        map_venta parse now1 cm am d ≠ map_venta parse now2 cm am d) := by
  refine ⟨?_, ?_, ?_, ?_⟩
  · intro d now1 now2 idv hdi hdt h1 h2 hne heq
    simp [map_cliente, hdi, hdt, h1, h2, pyOr, otruthy] at heq
    exact hne heq
  · intro d t now1 now2 hfr
    cases hdm : d.mid with
    | none => simp [map_cliente, hdm]
    | some idv => simp [map_cliente, hdm, hfr, pyOr, otruthy]
  · intro parse cm am d now1 now2 idv hdi hdt h1 h2 hne heq
    simp [map_venta, ventaFecha, hdi, hdt, h1, h2, pyOr, otruthy, DateVal.truthy] at heq
    exact hne heq
  · intro parse cm am d now1 now2 idv s hdi hdt hfv hsne hparse hne heq
    have hb : (s == "") = false := beq_eq_false_iff_ne.mpr hsne
    simp [map_venta, ventaFecha, hdi, hdt, hfv, hparse, hb, pyOr, otruthy,
      DateVal.truthy] at heq
    exact hne heq

theorem mapper_wallclock_dependence_witness :
    (map_cliente ⟨0, 0⟩ ⟨some (RefVal.oid "c1"), none, none, none⟩
      ≠ map_cliente ⟨1, 0⟩ ⟨some (RefVal.oid "c1"), none, none, none⟩)
  ∧ (map_cliente ⟨0, 0⟩ ⟨some (RefVal.oid "c1"), none, some ⟨5, 5⟩, none⟩
      = map_cliente ⟨1, 0⟩ ⟨some (RefVal.oid "c1"), none, some ⟨5, 5⟩, none⟩)
  ∧ (map_venta (fun _ => none) ⟨0, 0⟩ [] []
        ⟨some (RefVal.oid "v1"), none, none, none, none, none, none, none,
         none, none, none, none, none, none, none⟩
      ≠ map_venta (fun _ => none) ⟨1, 0⟩ [] []
        ⟨some (RefVal.oid "v1"), none, none, none, none, none, none, none,
         none, none, none, none, none, none, none⟩)
  ∧ (map_venta (fun _ => none) ⟨0, 0⟩ [] []
        ⟨some (RefVal.oid "v1"), none, none, none, none, none, none, none,
         some (DateVal.dstr "nope"), none, none, none, none, none, none⟩
      ≠ map_venta (fun _ => none) ⟨1, 0⟩ [] []
        ⟨some (RefVal.oid "v1"), none, none, none, none, none, none, none,
         some (DateVal.dstr "nope"), none, none, none, none, none, none⟩) :=
  ⟨mapper_wallclock_dependence.1 ⟨some (RefVal.oid "c1"), none, none, none⟩
      ⟨0, 0⟩ ⟨1, 0⟩ (RefVal.oid "c1") rfl rfl rfl rfl (by decide),
   mapper_wallclock_dependence.2.1 ⟨some (RefVal.oid "c1"), none, some ⟨5, 5⟩, none⟩
      ⟨5, 5⟩ ⟨0, 0⟩ ⟨1, 0⟩ rfl,
   mapper_wallclock_dependence.2.2.1 (fun _ => none) [] []
      ⟨some (RefVal.oid "v1"), none, none, none, none, none, none, none,
       none, none, none, none, none, none, none⟩
      ⟨0, 0⟩ ⟨1, 0⟩ (RefVal.oid "v1") rfl rfl rfl rfl (by decide),
   mapper_wallclock_dependence.2.2.2 (fun _ => none) [] []
      ⟨some (RefVal.oid "v1"), none, none, none, none, none, none, none,
       some (DateVal.dstr "nope"), none, none, none, none, none, none⟩
      ⟨0, 0⟩ ⟨1, 0⟩ (RefVal.oid "v1") "nope" rfl rfl rfl (by decide) rfl (by decide)⟩
